import Mathlib

/-!
# Dependency adapters of the association processor

Shallow embedding of `agent/association/processor/dep.go` (package `processor`).

The file declares four dependency interfaces (`assocService`, `bookkeepingService`,
`pluginExecutionService`, `parserService`) and four adapter types whose methods wrap
functions of the packages `service`, `statemanager`, `engine` and `parser`.

Conventions of the embedding.

* A Go `map[string]V` is an association list `List (String × V)` with pairwise distinct
  keys.  For the map behind `plugins` the list order is the order in which the `range`
  statement visits the entries during the run under consideration; Go leaves that order
  unspecified, so two lists that are permutations of each other stand for the same map
  visited in two different orders.
* The `range` statement is embedded with the semantics of the Go releases the file was
  written for (2016): the iteration variables are declared once for the whole loop and
  every iteration assigns to them.
* A struct value is what an assignment copies.  Objects that a struct value refers to
  (through a pointer, map or interface field) live in a heap, and a copy of the struct
  refers to the same objects.
* A call of a function of another package is recorded with the package, the function name
  and the arguments in order; what the function hands back is given by a parameter that
  stands for the behaviour of the other packages.
-/

namespace processor

/-! ## Data model -/

/-- Modelled from the spec: the declaration of `message.PluginState` is outside the source
file.  The data model of the spec gives it a configuration, a `HasExecuted` flag and, after
execution, a result; the source reads the fields `Configuration` and `HasExecuted`. -/
structure PluginState (C R : Type) where
  Configuration : C
  HasExecuted : Bool
  Result : Option R
deriving DecidableEq, Repr

/-- The Go type `map[string]message.PluginState`, entries listed in `range` visiting order. -/
abbrev PluginMap (C R : Type) := List (String × PluginState C R)

/-- Keys of a Go map. -/
def keys {V : Type} (m : List (String × V)) : List String := m.map Prod.fst

/-- Go map assignment `m[k] = v`: overwrite the entry of `k` when present, add it otherwise. -/
def mapSet {V : Type} : List (String × V) → String → V → List (String × V)
  | [], k, v => [(k, v)]
  | (k1, v1) :: rest, k, v => if k1 = k then (k, v) :: rest else (k1, v1) :: mapSet rest k v

/-- Go map lookup `m[k]`. -/
def mapGet {V : Type} : List (String × V) → String → Option V
  | [], _ => none
  | (k1, v1) :: rest, k => if k1 = k then some v1 else mapGet rest k

/-- Addresses of `contracts.Configuration` values that occur in `RunPlugins`: the
`Configuration` field of the range variable `pluginConfig`, and the `Configuration` field of
the value stored under a key of the caller's map `*plugins`. -/
inductive Addr where
  | loopVar
  | mapValue (key : String)
deriving DecidableEq, Repr

/-- Objects that struct values refer to, by address; `D` is the state of such an object. -/
abbrev Heap (D : Type) := Nat → Option D

/-- Change of the object at an address. -/
def heapSet {D : Type} (heap : Heap D) (address : Nat) (d : D) : Heap D :=
  fun a => if a = address then some d else heap a

/-- The memory `RunPlugins` works on: the caller's map `*plugins`, the heap of objects that
configurations refer to, and the range variable `pluginConfig` (`none` while no iteration
has assigned to it). -/
structure Memory (C R D : Type) where
  plugins : PluginMap C R
  heap : Heap D
  pluginConfig : Option (PluginState C R)

/-- Read of `*p` for a `*contracts.Configuration`. -/
def load {C R D : Type} (mem : Memory C R D) : Addr → Option C
  | Addr.loopVar => mem.pluginConfig.map (fun st => st.Configuration)
  | Addr.mapValue k => (mapGet mem.plugins k).map (fun st => st.Configuration)

/-- Write `*p = c` for a `*contracts.Configuration`. -/
def store {C R D : Type} (mem : Memory C R D) : Addr → C → Memory C R D
  | Addr.loopVar, c =>
      { mem with pluginConfig := mem.pluginConfig.map (fun st => { st with Configuration := c }) }
  | Addr.mapValue k, c =>
      { mem with
        plugins := mem.plugins.map
          (fun e => if e.1 = k then (e.1, { e.2 with Configuration := c }) else e) }

/-! ## pluginExecutionImp.RunPlugins -/

/-- Local state of the admission loop: the map `configs` under construction and the range
variable `pluginConfig`. -/
structure LoopState (C R : Type) where
  configs : List (String × Addr)
  pluginConfig : Option (PluginState C R)

/-- The loop of `RunPlugins`:

    for pluginName, pluginConfig := range *plugins {
        if pluginConfig.HasExecuted { break }
        configs[pluginName] = &pluginConfig.Configuration
    }

Each iteration assigns the visited entry to the single range variable, leaves the loop on
`HasExecuted`, and otherwise stores the address of the range variable's `Configuration`
field under the plugin name. -/
def rangeLoop {C R : Type} : PluginMap C R → LoopState C R → LoopState C R
  | [], s => s
  | (pluginName, v) :: rest, s =>
      if v.HasExecuted then
        { s with pluginConfig := some v }
      else
        rangeLoop rest
          { configs := mapSet s.configs pluginName Addr.loopVar, pluginConfig := some v }

/-- Modelled from the spec: the type `engine.SendResponse` is declared outside the source
file.  Section 4.3 of the spec: a streaming callback invoked as partial results become
available.  It is a function value supplied by the caller: a call passes the results so far
and may change what the caller owns, the plugins map and the objects in the heap. -/
abbrev SendResponse (C R D Out : Type) :=
  Out → PluginMap C R × Heap D → PluginMap C R × Heap D

/-- Arguments of one call of `engine.RunPlugins`. -/
structure EngineArgs (Ctx Reg Reply Cancel : Type) where
  context : Ctx
  documentID : String
  configs : List (String × Addr)
  pluginRegistry : Reg
  sendReply : Reply
  cancelFlag : Cancel

/-- One effect of the engine on the memory it shares with its caller: a store
`*configs[name] = c` through a pointer it was given, a change of an object in the heap
(reached through a reference held inside a configuration or in any other way), or a call of
`sendReply`. -/
inductive EngineEffect (C D Out : Type) where
  | store (name : String) (c : C)
  | mutate (address : Nat) (d : D)
  | reply (soFar : Out)

/-- What one call of `engine.RunPlugins` does, as far as the caller can see: the map it
returns and its effects on the shared memory, in the order they happen. -/
structure EngineRun (C D Out : Type) where
  pluginOutputs : Out
  effects : List (EngineEffect C D Out)

/-- The wrapped function `engine.RunPlugins`, a parameter of the adapter: it receives its
arguments, read access through the pointers and read access to the heap. -/
abbrev Engine (Ctx Reg Cancel C R D Out : Type) :=
  EngineArgs Ctx Reg (SendResponse C R D Out) Cancel → (Addr → Option C) → Heap D →
    EngineRun C D Out

/-- Effect of the engine's run on the memory.  A store goes through the pointer that
`configs` holds under the given name; a call of `sendReply` does to the caller's map and to
the heap what the caller's callback does. -/
def applyEffects {C R D Out : Type} (configs : List (String × Addr))
    (sendReply : SendResponse C R D Out) :
    List (EngineEffect C D Out) → Memory C R D → Memory C R D
  | [], mem => mem
  | EngineEffect.store name c :: rest, mem =>
      match mapGet configs name with
      | some a => applyEffects configs sendReply rest (store mem a c)
      | none => applyEffects configs sendReply rest mem
  | EngineEffect.mutate address d :: rest, mem =>
      applyEffects configs sendReply rest { mem with heap := heapSet mem.heap address d }
  | EngineEffect.reply soFar :: rest, mem =>
      applyEffects configs sendReply rest
        { mem with
          plugins := (sendReply soFar (mem.plugins, mem.heap)).1
          heap := (sendReply soFar (mem.plugins, mem.heap)).2 }

/-- A function of another package: `pkg.name`. -/
structure PkgFunc where
  pkg : String
  name : String
deriving DecidableEq, Repr

/-- Observable outcome of `pluginExecutionImp.RunPlugins`: the returned map, the functions
of other packages it called, the arguments of the call made to the engine, the memory as it
is when the engine is called and as it is on return. -/
structure RunResult (Ctx Reg Cancel C R D Out : Type) where
  pluginOutputs : Out
  calls : List PkgFunc
  engineCall : EngineArgs Ctx Reg (SendResponse C R D Out) Cancel
  memoryAtCall : Memory C R D
  memory : Memory C R D

namespace pluginExecutionImp

/-- The method `pluginExecutionImp.RunPlugins`.  The argument `plugins` is the map behind the
pointer of that name and `heap` the objects its configurations refer to, both as they are
when the method is called. -/
def RunPlugins {Ctx Reg Cancel C R D Out : Type}
    (engine_RunPlugins : Engine Ctx Reg Cancel C R D Out)
    (context : Ctx) (documentID : String) (plugins : PluginMap C R) (heap : Heap D)
    (pluginRegistry : Reg) (sendReply : SendResponse C R D Out) (cancelFlag : Cancel) :
    RunResult Ctx Reg Cancel C R D Out :=
  let s := rangeLoop plugins { configs := [], pluginConfig := none }
  let mem : Memory C R D := { plugins := plugins, heap := heap, pluginConfig := s.pluginConfig }
  let call : EngineArgs Ctx Reg (SendResponse C R D Out) Cancel :=
    { context := context, documentID := documentID, configs := s.configs,
      pluginRegistry := pluginRegistry, sendReply := sendReply, cancelFlag := cancelFlag }
  let run := engine_RunPlugins call (load mem) mem.heap
  { pluginOutputs := run.pluginOutputs
    calls := [⟨"engine", "RunPlugins"⟩]
    engineCall := call
    memoryAtCall := mem
    memory := applyEffects call.configs sendReply run.effects mem }

end pluginExecutionImp

/-- Names of the plugins handed to the engine: the keys of `configs`. -/
def admitted {Ctx Reg Cancel C R D Out : Type}
    (r : RunResult Ctx Reg Cancel C R D Out) : List String :=
  keys r.engineCall.configs

/-- The configuration the engine finds behind `configs[name]` when it is called. -/
def receivedConfiguration {Ctx Reg Cancel C R D Out : Type}
    (r : RunResult Ctx Reg Cancel C R D Out) (name : String) : Option C :=
  (mapGet r.engineCall.configs name).bind (load r.memoryAtCall)

/-- Modelled from the spec: `engine.RunPlugins` is outside the source file.  Section 4.3 of
the spec: the engine checks `cancelFlag` between plugin invocations and, if it is set, stops
admitting new plugins and returns the results accumulated so far; otherwise the plugin's
handler, resolved via the registry by name, is invoked with its configuration, and a failed
resolution is an error of that plugin (`none`), not of the run.  `cancelFlag k` is the state
of the flag at the check made when `k` plugins have been started. -/
def specEngineAdmit {C R : Type} (pluginRegistry : String → Option (C → R))
    (deref : Addr → Option C) (cancelFlag : Nat → Bool) :
    Nat → List (String × Addr) → List (String × Option R)
  | _, [] => []
  | k, (name, a) :: rest =>
      if cancelFlag k then []
      else
        (name, (pluginRegistry name).bind (fun handler => (deref a).map handler)) ::
          specEngineAdmit pluginRegistry deref cancelFlag (k + 1) rest

/-- Modelled from the spec: `engine.RunPlugins` as an engine the adapter can wrap.  Section
4.3 of the spec: `sendReply` is invoked as partial results become available, here once for
the result of each plugin that was run; the spec gives the engine no store through the
configuration pointers and no change of the objects configurations refer to. -/
def specEngine {Ctx C R D : Type} :
    Engine Ctx (String → Option (C → R)) (Nat → Bool) C R D (List (String × Option R)) :=
  fun args deref _ =>
    { pluginOutputs := specEngineAdmit args.pluginRegistry deref args.cancelFlag 0 args.configs
      effects :=
        (specEngineAdmit args.pluginRegistry deref args.cancelFlag 0 args.configs).map
          (fun result => EngineEffect.reply [result]) }

/-! ## Calls of functions of other packages -/

/-- Modelled from the spec: `sdkutil.StopPolicy` is declared outside the source file.  The
data model of the spec: a consecutive-failure counter and a threshold. -/
structure StopPolicy where
  counter : Nat
  threshold : Nat
deriving DecidableEq, Repr

/-- A Go value passed to a wrapper: a string, a `*sdkutil.StopPolicy` with the state behind
the pointer, or a value of a type declared in another package, identified by a tag. -/
inductive Val where
  | str (s : String)
  | stopPolicy (p : StopPolicy)
  | obj (tag : Nat)
deriving DecidableEq, Repr

/-- A call `pkg.name(args...)`, the arguments in their positions. -/
structure Call where
  callee : PkgFunc
  args : List Val
deriving DecidableEq, Repr

/-- Behaviour of the other packages: what a call hands back to its caller (results and
error) and does. -/
abbrev Packages (Out : Type) := Call → Out

/-- Outcome of a wrapper method: what it hands back, and the calls it made to other
packages, in order. -/
structure Traced (Out : Type) where
  outcome : Out
  calls : List Call

/-- The statement `return pkg.name(args...)`: one call, whose outcome is handed back. -/
def invoke {Out : Type} (pkgs : Packages Out) (callee : PkgFunc) (args : List Val) :
    Traced Out :=
  { outcome := pkgs { callee := callee, args := args }
    calls := [{ callee := callee, args := args }] }

/-! ## assocSvcImp -/

namespace assocSvcImp

/-- ListAssociations wraps service ListAssociations. -/
def ListAssociations {Out : Type} (pkgs : Packages Out)
    (log : Val) (ssmSvc : Val) (instanceID : String) : Traced Out :=
  invoke pkgs ⟨"service", "ListAssociations"⟩ [log, ssmSvc, Val.str instanceID]

/-- LoadAssociationDetail wraps service LoadAssociationDetail. -/
def LoadAssociationDetail {Out : Type} (pkgs : Packages Out)
    (log : Val) (ssmSvc : Val) (assoc : Val) : Traced Out :=
  invoke pkgs ⟨"service", "LoadAssociationDetail"⟩ [log, ssmSvc, assoc]

/-- UpdateAssociationStatus wraps service UpdateAssociationStatus. -/
def UpdateAssociationStatus {Out : Type} (pkgs : Packages Out)
    (log : Val) (ssmSvc : Val) (instanceID : String) (name : String) (status : String)
    (message : String) (agentInfo : Val) (processorStopPolicy : Val) : Traced Out :=
  invoke pkgs ⟨"service", "UpdateAssociationStatus"⟩
    [log, ssmSvc, Val.str instanceID, Val.str name, Val.str status, Val.str message,
      agentInfo, processorStopPolicy]

end assocSvcImp

/-! ## bookkeepingImp -/

namespace bookkeepingImp

/-- PersistData wraps statemanager PersistData. -/
def PersistData {Out : Type} (pkgs : Packages Out)
    (log : Val) (commandID instanceID locationFolder : String) (object : Val) : Traced Out :=
  invoke pkgs ⟨"statemanager", "PersistData"⟩
    [log, Val.str commandID, Val.str instanceID, Val.str locationFolder, object]

/-- RemoveData wraps statemanager RemoveData. -/
def RemoveData {Out : Type} (pkgs : Packages Out)
    (log : Val) (commandID instanceID locationFolder : String) : Traced Out :=
  invoke pkgs ⟨"statemanager", "RemoveData"⟩
    [log, Val.str commandID, Val.str instanceID, Val.str locationFolder]

/-- GetDocumentInfo wraps statemanager GetDocumentInfo. -/
def GetDocumentInfo {Out : Type} (pkgs : Packages Out)
    (log : Val) (commandID instanceID locationFolder : String) : Traced Out :=
  invoke pkgs ⟨"statemanager", "GetDocumentInfo"⟩
    [log, Val.str commandID, Val.str instanceID, Val.str locationFolder]

/-- PersistDocumentInfo wraps statemanager PersistDocumentInfo. -/
def PersistDocumentInfo {Out : Type} (pkgs : Packages Out)
    (log : Val) (docInfo : Val) (commandID instanceID locationFolder : String) : Traced Out :=
  invoke pkgs ⟨"statemanager", "PersistDocumentInfo"⟩
    [log, docInfo, Val.str commandID, Val.str instanceID, Val.str locationFolder]

/-- MoveCommandState wraps statemanager MoveCommandState. -/
def MoveCommandState {Out : Type} (pkgs : Packages Out)
    (log : Val) (commandID instanceID srcLocationFolder dstLocationFolder : String) :
    Traced Out :=
  invoke pkgs ⟨"statemanager", "MoveCommandState"⟩
    [log, Val.str commandID, Val.str instanceID, Val.str srcLocationFolder,
      Val.str dstLocationFolder]

/-- DocumentStateDir wraps statemanager DocumentStateDir. -/
def DocumentStateDir {Out : Type} (pkgs : Packages Out)
    (instanceID locationFolder : String) : Traced Out :=
  invoke pkgs ⟨"statemanager", "DocumentStateDir"⟩ [Val.str instanceID, Val.str locationFolder]

end bookkeepingImp

/-! ## parserImp -/

namespace parserImp

/-- ParseDocumentWithParams wraps parser ParseDocumentWithParams. -/
def ParseDocumentWithParams {Out : Type} (pkgs : Packages Out)
    (log : Val) (rawData : Val) : Traced Out :=
  invoke pkgs ⟨"parser", "ParseDocumentWithParams"⟩ [log, rawData]

/-- InitializeDocumentState wraps engine InitializeCommandState (the comment in the source;
the body is `return parser.InitializeCommandState(context, payload, rawData)`). -/
def InitializeDocumentState {Out : Type} (pkgs : Packages Out)
    (context : Val) (payload : Val) (rawData : Val) : Traced Out :=
  invoke pkgs ⟨"parser", "InitializeCommandState"⟩ [context, payload, rawData]

end parserImp

/-! ## The comments of the wrapper methods -/

/-- The package function each wrapper method wraps according to the comment above it
(`// X wraps pkg Y`), by receiver type and method name. -/
def commentNames : String → String → Option PkgFunc
  | "assocSvcImp", "ListAssociations" => some ⟨"service", "ListAssociations"⟩
  | "assocSvcImp", "LoadAssociationDetail" => some ⟨"service", "LoadAssociationDetail"⟩
  | "assocSvcImp", "UpdateAssociationStatus" => some ⟨"service", "UpdateAssociationStatus"⟩
  | "bookkeepingImp", "PersistData" => some ⟨"statemanager", "PersistData"⟩
  | "bookkeepingImp", "RemoveData" => some ⟨"statemanager", "RemoveData"⟩
  | "bookkeepingImp", "GetDocumentInfo" => some ⟨"statemanager", "GetDocumentInfo"⟩
  | "bookkeepingImp", "PersistDocumentInfo" => some ⟨"statemanager", "PersistDocumentInfo"⟩
  | "bookkeepingImp", "MoveCommandState" => some ⟨"statemanager", "MoveCommandState"⟩
  | "bookkeepingImp", "DocumentStateDir" => some ⟨"statemanager", "DocumentStateDir"⟩
  | "pluginExecutionImp", "RunPlugins" => some ⟨"engine", "RunPlugins"⟩
  | "parserImp", "ParseDocumentWithParams" => some ⟨"parser", "ParseDocumentWithParams"⟩
  | "parserImp", "InitializeDocumentState" => some ⟨"engine", "InitializeCommandState"⟩
  | _, _ => none

/-- The package functions called by a run of a wrapper method. -/
def callees {Out : Type} (t : Traced Out) : List PkgFunc := t.calls.map (fun c => c.callee)

/-! ## Stop policy -/

/-- Modelled from the spec: when the counter reaches the threshold the policy is open. -/
def StopPolicy.isOpen (p : StopPolicy) : Bool := decide (p.threshold ≤ p.counter)

/-- Modelled from the spec: on network success the failure counter is reset to zero. -/
def StopPolicy.onSuccess (p : StopPolicy) : StopPolicy := { p with counter := 0 }

/-- Modelled from the spec: on network failure the counter is incremented. -/
def StopPolicy.onFailure (p : StopPolicy) : StopPolicy := { p with counter := p.counter + 1 }

/-- Outcome the network call has when it is made. -/
inductive NetworkOutcome where
  | success
  | failure
deriving DecidableEq, Repr

/-- Result of a status report. -/
inductive ReportResult where
  | response
  | circuitOpenError
  | transportError
deriving DecidableEq, Repr

/-- State after one status report: the stop policy, the result handed back and whether a
network call was made. -/
structure ReportStep where
  policy : StopPolicy
  result : ReportResult
  networkAttempted : Bool
deriving DecidableEq, Repr

/-- Modelled from the spec: `service.UpdateAssociationStatus` is outside the source file.
Section 4.1 of the spec: before the network call the stop policy is consulted; if it is open
the call is skipped and a `CircuitOpenError` is returned; on network success the counter is
reset, on network failure it is incremented. -/
def specUpdateAssociationStatus (network : NetworkOutcome)
    (_instanceID _name _status _message : String) (_agentInfo : Val)
    (processorStopPolicy : StopPolicy) : ReportStep :=
  if processorStopPolicy.isOpen then
    { policy := processorStopPolicy, result := ReportResult.circuitOpenError,
      networkAttempted := false }
  else
    match network with
    | NetworkOutcome.success =>
        { policy := processorStopPolicy.onSuccess, result := ReportResult.response,
          networkAttempted := true }
    | NetworkOutcome.failure =>
        { policy := processorStopPolicy.onFailure, result := ReportResult.transportError,
          networkAttempted := true }

/-- Modelled from the spec: the package `service` as the adapter sees it, with the network
in a given condition: a call of `service.UpdateAssociationStatus` with arguments of the
declared types does what section 4.1 of the spec says; no other call is answered. -/
def specService (network : NetworkOutcome) : Packages (Option ReportStep) :=
  fun call =>
    if call.callee = ⟨"service", "UpdateAssociationStatus"⟩ then
      match call.args with
      | [_, _, Val.str instanceID, Val.str name, Val.str status, Val.str message, agentInfo,
          Val.stopPolicy p] =>
          some (specUpdateAssociationStatus network instanceID name status message agentInfo p)
      | _ => none
    else none

/-- One status report through the adapter `assocSvcImp.UpdateAssociationStatus`. -/
def report (network : NetworkOutcome) (p : StopPolicy) : Option ReportStep :=
  (assocSvcImp.UpdateAssociationStatus (specService network)
    (Val.obj 0) (Val.obj 1) "i-0" "assoc" "Failed" "msg" (Val.obj 2) (Val.stopPolicy p)).outcome

/-- The stop policy after `k` consecutive reports during which the network fails. -/
def afterFailures : Nat → StopPolicy → StopPolicy
  | 0, p => p
  | k + 1, p =>
      match report NetworkOutcome.failure (afterFailures k p) with
      | some step => step.policy
      | none => afterFailures k p

/-! ## Interfaces and method sets -/

/-- A Go method signature: name, parameter types and result types. -/
structure Method where
  name : String
  params : List String
  results : List String
deriving DecidableEq, Repr

/-- The interface `assocService`. -/
def assocService : List Method :=
  [ ⟨"ListAssociations", ["log.T", "ssmsvc.Service", "string"],
      ["*model.AssociationRawData", "error"]⟩,
    ⟨"LoadAssociationDetail", ["log.T", "ssmsvc.Service", "*model.AssociationRawData"],
      ["error"]⟩,
    ⟨"UpdateAssociationStatus",
      ["log.T", "ssmsvc.Service", "string", "string", "string", "string",
        "*contracts.AgentInfo", "*sdkutil.StopPolicy"],
      ["*ssm.UpdateAssociationStatusOutput", "error"]⟩ ]

/-- Method set of the type `assocSvcImp`. -/
def assocSvcImp.methodSet : List Method :=
  [ ⟨"ListAssociations", ["log.T", "ssmsvc.Service", "string"],
      ["*model.AssociationRawData", "error"]⟩,
    ⟨"LoadAssociationDetail", ["log.T", "ssmsvc.Service", "*model.AssociationRawData"],
      ["error"]⟩,
    ⟨"UpdateAssociationStatus",
      ["log.T", "ssmsvc.Service", "string", "string", "string", "string",
        "*contracts.AgentInfo", "*sdkutil.StopPolicy"],
      ["*ssm.UpdateAssociationStatusOutput", "error"]⟩ ]

/-- The interface `bookkeepingService`. -/
def bookkeepingService : List Method :=
  [ ⟨"PersistData", ["log.T", "string", "string", "string", "interface\x7b\x7d"], []⟩,
    ⟨"RemoveData", ["log.T", "string", "string", "string"], []⟩,
    ⟨"GetDocumentInfo", ["log.T", "string", "string", "string"], ["message.DocumentInfo"]⟩,
    ⟨"PersistDocumentInfo", ["log.T", "message.DocumentInfo", "string", "string", "string"],
      []⟩,
    ⟨"MoveCommandState", ["log.T", "string", "string", "string", "string"], []⟩,
    ⟨"CmdStateDir", ["string", "string"], ["string"]⟩ ]

/-- Method set of the type `bookkeepingImp`. -/
def bookkeepingImp.methodSet : List Method :=
  [ ⟨"PersistData", ["log.T", "string", "string", "string", "interface\x7b\x7d"], []⟩,
    ⟨"RemoveData", ["log.T", "string", "string", "string"], []⟩,
    ⟨"GetDocumentInfo", ["log.T", "string", "string", "string"], ["message.DocumentInfo"]⟩,
    ⟨"PersistDocumentInfo", ["log.T", "message.DocumentInfo", "string", "string", "string"],
      []⟩,
    ⟨"MoveCommandState", ["log.T", "string", "string", "string", "string"], []⟩,
    ⟨"DocumentStateDir", ["string", "string"], ["string"]⟩ ]

/-- The interface `pluginExecutionService`. -/
def pluginExecutionService : List Method :=
  [ ⟨"RunPlugins",
      ["context.T", "string", "*map[string]message.PluginState", "plugin.PluginRegistry",
        "engine.SendResponse", "task.CancelFlag"],
      ["map[string]*contracts.PluginResult"]⟩ ]

/-- Method set of the type `pluginExecutionImp`. -/
def pluginExecutionImp.methodSet : List Method :=
  [ ⟨"RunPlugins",
      ["context.T", "string", "*map[string]message.PluginState", "plugin.PluginRegistry",
        "engine.SendResponse", "task.CancelFlag"],
      ["map[string]*contracts.PluginResult"]⟩ ]

/-- The interface `parserService`. -/
def parserService : List Method :=
  [ ⟨"ParseDocumentWithParams", ["log.T", "*model.AssociationRawData"],
      ["*message.SendCommandPayload", "error"]⟩,
    ⟨"InitializeCommandState",
      ["context.T", "*message.SendCommandPayload", "*model.AssociationRawData"],
      ["message.CommandState"]⟩ ]

/-- Method set of the type `parserImp`. -/
def parserImp.methodSet : List Method :=
  [ ⟨"ParseDocumentWithParams", ["log.T", "*model.AssociationRawData"],
      ["*message.SendCommandPayload", "error"]⟩,
    ⟨"InitializeDocumentState",
      ["context.T", "*message.SendCommandPayload", "*model.AssociationRawData"],
      ["message.CommandState"]⟩ ]

/-- Go's rule for a type to implement an interface: every method the interface declares is
in the method set of the type, under the same name and with the same signature. -/
def implements (methodSet iface : List Method) : Bool :=
  iface.all (fun m => methodSet.contains m)

/-! ## Sample inputs -/

/-- A heap without objects. -/
def emptyHeap : Heap Unit := fun _ => none

/-- A callback that changes nothing. -/
def quietReply {C R D Out : Type} : SendResponse C R D Out := fun _ s => s

/-- An engine that returns nothing and has no effect. -/
def idleEngine : Engine Unit Unit Unit Nat Nat Unit Unit :=
  fun _ _ _ => { pluginOutputs := (), effects := [] }

/-- An engine that returns the names under which it was handed a configuration. -/
def echoEngine : Engine Unit Unit Unit Nat Nat Unit (List String) :=
  fun args _ _ => { pluginOutputs := keys args.configs, effects := [] }

/-- A map visited in the order P1, P2, P3 in which only P2 has been executed. -/
def resumedMap : PluginMap Nat Nat :=
  [("P1", ⟨1, false, none⟩), ("P2", ⟨2, true, some 0⟩), ("P3", ⟨3, false, none⟩)]

/-- The map `resumedMap` visited in the order P3, P1, P2. -/
def resumedMapPendingFirst : PluginMap Nat Nat :=
  [("P3", ⟨3, false, none⟩), ("P1", ⟨1, false, none⟩), ("P2", ⟨2, true, some 0⟩)]

/-- A map of two plugins with different configurations, none executed, visited P1 then P2. -/
def freshMap : PluginMap Nat Nat :=
  [("P1", ⟨1, false, none⟩), ("P2", ⟨2, false, none⟩)]

/-- A map in which every plugin has been executed. -/
def doneMap : PluginMap Nat Nat :=
  [("P1", ⟨1, true, some 0⟩), ("P2", ⟨2, true, some 0⟩)]

/-- A map with one executed and one pending plugin, visited executed-first. -/
def mixedMapExecutedFirst : PluginMap Nat Nat :=
  [("P1", ⟨1, true, some 0⟩), ("P2", ⟨2, false, none⟩)]

/-- The same map as `mixedMapExecutedFirst`, visited pending-first. -/
def mixedMapPendingFirst : PluginMap Nat Nat :=
  [("P2", ⟨2, false, none⟩), ("P1", ⟨1, true, some 0⟩)]

/-- The declaration of `contracts.Configuration` is outside the source file and the
functions above take its type as a parameter.  This instance serves the sample inputs: a
struct with a string field, copied by an assignment, and a field that refers to an object
in the heap, as a Go struct with a pointer, map or interface field does. -/
structure Configuration where
  OrchestrationDirectory : String
  Properties : Nat
deriving DecidableEq, Repr

/-- A map with one pending plugin whose configuration refers to the object at address 7. -/
def sharedMap : PluginMap Configuration Nat :=
  [("P1", ⟨⟨"dir", 7⟩, false, none⟩)]

/-- A heap in which the object at address 7 is in state 1. -/
def sharedHeap : Heap Nat := fun a => if a = 7 then some 1 else none

/-- An engine whose plugins each put the object their configuration refers to into state 2. -/
def mutatingEngine : Engine Unit Unit Unit Configuration Nat Nat Unit :=
  fun args deref _ =>
    { pluginOutputs := ()
      effects := args.configs.filterMap
        (fun e => (deref e.2).map (fun c => EngineEffect.mutate c.Properties 2)) }

/-- A callback of a caller that marks every plugin of its map as executed. -/
def markingReply : SendResponse Nat Nat Unit Unit :=
  fun _ s => (s.1.map (fun e => (e.1, { e.2 with HasExecuted := true })), s.2)

/-- An engine that calls `sendReply` once. -/
def replyingEngine : Engine Unit Unit Unit Nat Nat Unit Unit :=
  fun _ _ _ => { pluginOutputs := (), effects := [EngineEffect.reply ()] }

/-- Behaviour of other packages that hands back the call it received. -/
def echoPackages : Packages Call := fun call => call

/-- What the caller reads through its map: the state of the object that the configuration
stored under a name refers to. -/
def readProperties {R D : Type} (plugins : PluginMap Configuration R) (heap : Heap D)
    (name : String) : Option D :=
  (mapGet plugins name).bind (fun st => heap st.Configuration.Properties)

/-! ## Lemmas on the admission loop -/

theorem mem_keys_mapSet {V : Type} (m : List (String × V)) (k : String) (v : V) (n : String) :
    n ∈ keys (mapSet m k v) ↔ n = k ∨ n ∈ keys m := by
  induction m with
  | nil => simp [mapSet, keys]
  | cons e rest ih =>
    obtain ⟨k1, v1⟩ := e
    by_cases hk : k1 = k
    · subst hk
      simp [mapSet, keys]
    · simp only [mapSet, hk, if_false]
      simp only [keys, List.map_cons, List.mem_cons] at ih ⊢
      rw [ih]
      tauto

/-- Keys of `configs` after the loop: the keys it started with and the names of the entries
visited before the first one that has `HasExecuted`. -/
theorem mem_keys_rangeLoop {C R : Type} (plugins : PluginMap C R) (s : LoopState C R)
    (n : String) :
    n ∈ keys (rangeLoop plugins s).configs ↔
      n ∈ keys s.configs ∨ n ∈ keys (plugins.takeWhile (fun e => !e.2.HasExecuted)) := by
  induction plugins generalizing s with
  | nil => simp [rangeLoop, keys]
  | cons e rest ih =>
    obtain ⟨k, v⟩ := e
    by_cases hv : v.HasExecuted = true
    · simp [rangeLoop, hv, keys]
    · have hv2 : v.HasExecuted = false := by simpa using hv
      simp only [rangeLoop, hv2, Bool.false_eq_true, if_false]
      rw [ih, mem_keys_mapSet]
      simp [keys, List.takeWhile_cons, hv2]
      tauto

/-- A map assignment of the range variable's address keeps a map of such addresses one. -/
theorem mapSet_loopVar (m : List (String × Addr)) (k : String)
    (hm : ∀ e ∈ m, e.2 = Addr.loopVar) :
    ∀ e ∈ mapSet m k Addr.loopVar, e.2 = Addr.loopVar := by
  induction m with
  | nil => intro e he; simp [mapSet] at he; simp [he]
  | cons x xs ihx =>
    intro e he
    obtain ⟨k1, a1⟩ := x
    by_cases hk : k1 = k
    · simp only [mapSet, hk, if_true, List.mem_cons] at he
      rcases he with he | he
      · simp [he]
      · exact hm e (List.mem_cons_of_mem _ he)
    · simp only [mapSet, hk, if_false, List.mem_cons] at he
      rcases he with he | he
      · exact hm e (by simp [he])
      · exact ihx (fun e he => hm e (List.mem_cons_of_mem _ he)) e he

/-- Every pointer stored by the loop is the address of the range variable. -/
theorem rangeLoop_addr {C R : Type} (plugins : PluginMap C R) (s : LoopState C R)
    (hs : ∀ e ∈ s.configs, e.2 = Addr.loopVar) :
    ∀ e ∈ (rangeLoop plugins s).configs, e.2 = Addr.loopVar := by
  induction plugins generalizing s with
  | nil => simpa [rangeLoop] using hs
  | cons e rest ih =>
    obtain ⟨k, v⟩ := e
    by_cases hv : v.HasExecuted = true
    · simpa [rangeLoop, hv] using hs
    · have hv2 : v.HasExecuted = false := by simpa using hv
      simp only [rangeLoop, hv2, Bool.false_eq_true, if_false]
      exact ih _ (mapSet_loopVar s.configs k hs)

/-- A lookup in a map of range-variable addresses finds the range variable's address. -/
theorem mapGet_loopVar (m : List (String × Addr)) (hm : ∀ e ∈ m, e.2 = Addr.loopVar)
    (k : String) (a : Addr) (h : mapGet m k = some a) : a = Addr.loopVar := by
  induction m with
  | nil => simp [mapGet] at h
  | cons x xs ih =>
    obtain ⟨k1, a1⟩ := x
    by_cases hk : k1 = k
    · simp only [mapGet, hk, if_true, Option.some.injEq] at h
      have := hm (k1, a1) (List.mem_cons_self _ _)
      simpa [h] using this
    · simp only [mapGet, hk, if_false] at h
      exact ih (fun e he => hm e (List.mem_cons_of_mem _ he)) h

/-- Effects of an engine that holds only pointers to the range variable leave the stored
entries of the map alone, as long as the caller's callback does. -/
theorem applyEffects_plugins {C R D Out : Type} (configs : List (String × Addr))
    (hc : ∀ e ∈ configs, e.2 = Addr.loopVar) (sendReply : SendResponse C R D Out)
    (hreply : ∀ soFar s, (sendReply soFar s).1 = s.1)
    (effects : List (EngineEffect C D Out)) (mem : Memory C R D) :
    (applyEffects configs sendReply effects mem).plugins = mem.plugins := by
  induction effects generalizing mem with
  | nil => rfl
  | cons w rest ih =>
    cases w with
    | store name c =>
      simp only [applyEffects]
      cases hg : mapGet configs name with
      | none => simpa using ih mem
      | some a =>
        have ha := mapGet_loopVar configs hc name a hg
        subst ha
        simpa [store] using ih (store mem Addr.loopVar c)
    | mutate address d =>
      simp only [applyEffects]
      rw [ih]
    | reply soFar =>
      simp only [applyEffects]
      rw [ih]
      exact hreply soFar (mem.plugins, mem.heap)

theorem takeWhile_split {α : Type} (p : α → Bool) (before : List α) (e : α) (after : List α)
    (hb : ∀ x ∈ before, p x = true) (he : p e = false) :
    (before ++ e :: after).takeWhile p = before := by
  induction before with
  | nil => simp [List.takeWhile_cons, he]
  | cons x xs ih =>
    have hx : p x = true := hb x (List.mem_cons_self _ _)
    simp only [List.cons_append, List.takeWhile_cons, hx, if_true]
    rw [ih (fun y hy => hb y (List.mem_cons_of_mem _ hy))]

theorem takeWhile_all {α : Type} (p : α → Bool) (l : List α) (h : ∀ x ∈ l, p x = true) :
    l.takeWhile p = l := by
  induction l with
  | nil => rfl
  | cons x xs ih =>
    have hx : p x = true := h x (List.mem_cons_self _ _)
    simp only [List.takeWhile_cons, hx, if_true]
    rw [ih (fun y hy => h y (List.mem_cons_of_mem _ hy))]

/-- In a map a key has one value. -/
theorem unique_value {V : Type} (m : List (String × V)) (hkeys : (keys m).Nodup)
    (k : String) (v w : V) (hv : (k, v) ∈ m) (hw : (k, w) ∈ m) : v = w := by
  induction m with
  | nil => simp at hv
  | cons x xs ih =>
    simp only [keys, List.map_cons, List.nodup_cons] at hkeys
    obtain ⟨hx, hxs⟩ := hkeys
    have hnot : ∀ u, (k, u) ∈ xs → x.1 ≠ k := by
      intro u hu hc
      exact hx (List.mem_map.mpr ⟨(k, u), hu, hc.symm⟩)
    rcases List.mem_cons.mp hv with hv1 | hv1 <;> rcases List.mem_cons.mp hw with hw1 | hw1
    · have := hv1.trans hw1.symm
      simpa using this
    · exact absurd (by rw [← hv1]) (hnot w hw1)
    · exact absurd (by rw [← hw1]) (hnot v hv1)
    · exact ih hxs hv1 hw1

/-- Membership in the set of admitted names, in terms of the visiting order. -/
theorem mem_admitted {Ctx Reg Cancel C R D Out : Type}
    (engine : Engine Ctx Reg Cancel C R D Out) (context : Ctx) (documentID : String)
    (plugins : PluginMap C R) (heap : Heap D) (pluginRegistry : Reg)
    (sendReply : SendResponse C R D Out) (cancelFlag : Cancel) (n : String) :
    n ∈ admitted (pluginExecutionImp.RunPlugins engine context documentID plugins heap
        pluginRegistry sendReply cancelFlag) ↔
      n ∈ keys (plugins.takeWhile (fun e => !e.2.HasExecuted)) := by
  have h := mem_keys_rangeLoop plugins { configs := [], pluginConfig := none } n
  simp only [keys, List.map_nil, List.not_mem_nil, false_or] at h
  simpa [admitted, pluginExecutionImp.RunPlugins, keys] using h

/-- No name is admitted from a visiting order in which every plugin is executed. -/
theorem not_mem_takeWhile_of_all {C R : Type} (l : PluginMap C R)
    (h : ∀ x ∈ l, x.2.HasExecuted = true) (n : String) :
    n ∉ keys (l.takeWhile (fun e => !e.2.HasExecuted)) := by
  intro hn
  simp only [keys, List.mem_map] at hn
  obtain ⟨e, he, _⟩ := hn
  have h1 := List.mem_takeWhile_imp he
  have h2 := h e ((List.takeWhile_sublist _).subset he)
  simp [h2] at h1

/-! ## Settled claims -/

/-- C1, counterexample: the map declared P1, P2, P3 with only P2 executed has P1 as its only
plugin before the first executed entry, but a run whose iteration visits P3, P1, P2 hands P3
and P1 to the engine: the entries are visited in the order of the map iteration, not in the
order of the document. -/
theorem RunPlugins_admission_follows_visiting_order :
    resumedMapPendingFirst.Perm resumedMap ∧
      (keys resumedMap).Nodup ∧
      keys (resumedMap.takeWhile (fun e => !e.2.HasExecuted)) = ["P1"] ∧
      (pluginExecutionImp.RunPlugins echoEngine () "doc" resumedMapPendingFirst emptyHeap
        () quietReply ()).pluginOutputs = ["P3", "P1"] ∧
      ¬ (∀ (declared visited : PluginMap Nat Nat), (keys declared).Nodup →
          visited.Perm declared →
          ∀ n, n ∈ (pluginExecutionImp.RunPlugins echoEngine () "doc" visited emptyHeap
                () quietReply ()).pluginOutputs ↔
            n ∈ keys (declared.takeWhile (fun e => !e.2.HasExecuted))) := by
  have hperm : resumedMapPendingFirst.Perm resumedMap := by
    have h := @List.perm_append_comm _ (resumedMapPendingFirst.take 1)
      (resumedMapPendingFirst.drop 1)
    simpa [resumedMapPendingFirst, resumedMap] using h
  refine ⟨hperm, by decide, by decide, by decide, ?_⟩
  intro h
  have h1 := (h resumedMap resumedMapPendingFirst (by decide) hperm "P3").mp (by decide)
  revert h1
  decide

/-- C1, amended: RunPlugins calls the engine with a configs map that holds exactly the
plugins visited before the first visited entry whose HasExecuted is true, in the order in
which the map iteration of that run yields the entries: every entry visited before that one
is admitted, that entry and every entry visited after it are not; when no entry has
HasExecuted, every entry is admitted. -/
theorem RunPlugins_admits_before_first_executed {Ctx Reg Cancel C R D Out : Type}
    (engine : Engine Ctx Reg Cancel C R D Out) (context : Ctx) (documentID : String)
    (plugins : PluginMap C R) (heap : Heap D) (pluginRegistry : Reg)
    (sendReply : SendResponse C R D Out) (cancelFlag : Cancel)
    (hkeys : (keys plugins).Nodup) :
    (pluginExecutionImp.RunPlugins engine context documentID plugins heap pluginRegistry
          sendReply cancelFlag).pluginOutputs =
        (engine
          { context := context, documentID := documentID,
            configs := (pluginExecutionImp.RunPlugins engine context documentID plugins heap
              pluginRegistry sendReply cancelFlag).engineCall.configs,
            pluginRegistry := pluginRegistry, sendReply := sendReply,
            cancelFlag := cancelFlag }
          (load (pluginExecutionImp.RunPlugins engine context documentID plugins heap
              pluginRegistry sendReply cancelFlag).memoryAtCall) heap).pluginOutputs ∧
      (∀ (before : PluginMap C R) (e : String × PluginState C R) (after : PluginMap C R),
        plugins = before ++ e :: after →
        (∀ x ∈ before, x.2.HasExecuted = false) → e.2.HasExecuted = true →
        (∀ n, n ∈ admitted (pluginExecutionImp.RunPlugins engine context documentID plugins
              heap pluginRegistry sendReply cancelFlag) ↔ n ∈ keys before) ∧
          e.1 ∉ admitted (pluginExecutionImp.RunPlugins engine context documentID plugins
              heap pluginRegistry sendReply cancelFlag) ∧
          ∀ x ∈ after, x.1 ∉ admitted (pluginExecutionImp.RunPlugins engine context
              documentID plugins heap pluginRegistry sendReply cancelFlag)) ∧
      ((∀ x ∈ plugins, x.2.HasExecuted = false) →
        ∀ n, n ∈ admitted (pluginExecutionImp.RunPlugins engine context documentID plugins
              heap pluginRegistry sendReply cancelFlag) ↔ n ∈ keys plugins) := by
  refine ⟨rfl, ?_, ?_⟩
  · intro before e after hsplit hb he
    have htw : plugins.takeWhile (fun e => !e.2.HasExecuted) = before := by
      rw [hsplit]
      exact takeWhile_split _ before e after (fun x hx => by simp [hb x hx]) (by simp [he])
    have hmem : ∀ n, n ∈ admitted (pluginExecutionImp.RunPlugins engine context documentID
        plugins heap pluginRegistry sendReply cancelFlag) ↔ n ∈ keys before := by
      intro n
      rw [mem_admitted, htw]
    have hnd : (keys before ++ e.1 :: keys after).Nodup := by
      have := hkeys
      rw [hsplit] at this
      simpa [keys] using this
    have hdisj := List.nodup_append.mp hnd
    refine ⟨hmem, ?_, ?_⟩
    · intro h
      exact hdisj.2.2 ((hmem _).mp h) (List.mem_cons_self _ _)
    · intro x hx h
      have hxk : x.1 ∈ keys after := List.mem_map_of_mem Prod.fst hx
      exact hdisj.2.2 ((hmem _).mp h) (List.mem_cons_of_mem _ hxk)
  · intro hall n
    rw [mem_admitted, takeWhile_all _ plugins (fun x hx => by simp [hall x hx])]

/-- Witness of the amended C1 on a map visited P1, P2, P3 with P2 executed: the engine, which
hands back the names it received, hands back P1 alone. -/
theorem RunPlugins_admits_before_first_executed_witness :
    (keys resumedMap).Nodup ∧
      (pluginExecutionImp.RunPlugins echoEngine () "doc" resumedMap emptyHeap
          () quietReply ()).pluginOutputs = ["P1"] ∧
      ((pluginExecutionImp.RunPlugins echoEngine () "doc" resumedMap emptyHeap
            () quietReply ()).pluginOutputs =
          (echoEngine
            { context := (), documentID := "doc",
              configs := (pluginExecutionImp.RunPlugins echoEngine () "doc" resumedMap
                emptyHeap () quietReply ()).engineCall.configs,
              pluginRegistry := (), sendReply := quietReply, cancelFlag := () }
            (load (pluginExecutionImp.RunPlugins echoEngine () "doc" resumedMap emptyHeap
                () quietReply ()).memoryAtCall) emptyHeap).pluginOutputs) ∧
      ((∀ n, n ∈ admitted (pluginExecutionImp.RunPlugins echoEngine () "doc" resumedMap
              emptyHeap () quietReply ()) ↔
            n ∈ keys [("P1", (⟨1, false, none⟩ : PluginState Nat Nat))]) ∧
        ("P2", (⟨2, true, some 0⟩ : PluginState Nat Nat)).1 ∉
          admitted (pluginExecutionImp.RunPlugins echoEngine () "doc" resumedMap emptyHeap
            () quietReply ()) ∧
        ∀ x ∈ [("P3", (⟨3, false, none⟩ : PluginState Nat Nat))],
          x.1 ∉ admitted (pluginExecutionImp.RunPlugins echoEngine () "doc" resumedMap
              emptyHeap () quietReply ())) :=
  ⟨by decide, by decide,
    (RunPlugins_admits_before_first_executed echoEngine () "doc" resumedMap emptyHeap ()
      quietReply () (by decide)).1,
    (RunPlugins_admits_before_first_executed echoEngine () "doc" resumedMap emptyHeap ()
      quietReply () (by decide)).2.1 [("P1", ⟨1, false, none⟩)] ("P2", ⟨2, true, some 0⟩)
      [("P3", ⟨3, false, none⟩)] rfl (by decide) rfl⟩

/-- C3: a plugin of the map whose HasExecuted is true is never handed to the engine: its
name is not a key of the configs map passed to engine.RunPlugins. -/
theorem RunPlugins_never_resubmits_executed {Ctx Reg Cancel C R D Out : Type}
    (engine : Engine Ctx Reg Cancel C R D Out) (context : Ctx) (documentID : String)
    (plugins : PluginMap C R) (heap : Heap D) (pluginRegistry : Reg)
    (sendReply : SendResponse C R D Out) (cancelFlag : Cancel)
    (hkeys : (keys plugins).Nodup) (name : String) (st : PluginState C R)
    (hmem : (name, st) ∈ plugins) (hexec : st.HasExecuted = true) :
    name ∉ keys (pluginExecutionImp.RunPlugins engine context documentID plugins heap
        pluginRegistry sendReply cancelFlag).engineCall.configs := by
  intro h
  have h2 : name ∈ keys (plugins.takeWhile (fun e => !e.2.HasExecuted)) :=
    (mem_admitted engine context documentID plugins heap pluginRegistry sendReply cancelFlag
      name).mp h
  simp only [keys, List.mem_map] at h2
  obtain ⟨⟨k, v⟩, hin, hk⟩ := h2
  simp only at hk
  subst hk
  have hv : (!v.HasExecuted) = true := by
    have := List.mem_takeWhile_imp hin
    simpa using this
  have hin2 : (k, v) ∈ plugins := (List.takeWhile_sublist _).subset hin
  have hinj : v = st := unique_value plugins hkeys k v st hin2 hmem
  subst hinj
  simp [hexec] at hv

/-- Witness of C3 on a map visited P1, P2, P3 with P2 executed: P2 is not a key of configs. -/
theorem RunPlugins_never_resubmits_executed_witness :
    (keys resumedMap).Nodup ∧
      ("P2", (⟨2, true, some 0⟩ : PluginState Nat Nat)) ∈ resumedMap ∧
      (⟨2, true, some 0⟩ : PluginState Nat Nat).HasExecuted = true ∧
      "P2" ∉ keys (pluginExecutionImp.RunPlugins idleEngine () "doc" resumedMap emptyHeap
          () quietReply ()).engineCall.configs :=
  ⟨by decide, by decide, rfl,
    RunPlugins_never_resubmits_executed idleEngine () "doc" resumedMap emptyHeap () quietReply
      () (by decide) "P2" ⟨2, true, some 0⟩ (by decide) rfl⟩

/-- C5: when every PluginState of the map has HasExecuted = true (the empty map included),
no plugin is admitted and the configs map built for the engine is empty. -/
theorem RunPlugins_all_executed_admits_none {Ctx Reg Cancel C R D Out : Type}
    (engine : Engine Ctx Reg Cancel C R D Out) (context : Ctx) (documentID : String)
    (plugins : PluginMap C R) (heap : Heap D) (pluginRegistry : Reg)
    (sendReply : SendResponse C R D Out) (cancelFlag : Cancel)
    (hall : ∀ x ∈ plugins, x.2.HasExecuted = true) :
    admitted (pluginExecutionImp.RunPlugins engine context documentID plugins heap
        pluginRegistry sendReply cancelFlag) = [] ∧
      (pluginExecutionImp.RunPlugins engine context documentID plugins heap
        pluginRegistry sendReply cancelFlag).engineCall.configs = [] := by
  have hc : (pluginExecutionImp.RunPlugins engine context documentID plugins heap
      pluginRegistry sendReply cancelFlag).engineCall.configs = [] := by
    cases plugins with
    | nil => rfl
    | cons e rest =>
      obtain ⟨k, v⟩ := e
      have hv : v.HasExecuted = true := hall (k, v) (List.mem_cons_self _ _)
      simp [pluginExecutionImp.RunPlugins, rangeLoop, hv]
  exact ⟨by simp [admitted, keys, hc], hc⟩

/-- Witness of C5 on a map of two executed plugins. -/
theorem RunPlugins_all_executed_admits_none_witness :
    (∀ x ∈ doneMap, x.2.HasExecuted = true) ∧
      (admitted (pluginExecutionImp.RunPlugins idleEngine () "doc" doneMap emptyHeap
          () quietReply ()) = [] ∧
        (pluginExecutionImp.RunPlugins idleEngine () "doc" doneMap emptyHeap
          () quietReply ()).engineCall.configs = []) :=
  ⟨by decide,
    RunPlugins_all_executed_admits_none idleEngine () "doc" doneMap emptyHeap () quietReply ()
      (by decide)⟩

/-- Every admitted plugin is handed the configuration held by the range variable when the
loop has ended, that of the entry visited last. -/
theorem received_is_range_variable {Ctx Reg Cancel C R D Out : Type}
    (engine : Engine Ctx Reg Cancel C R D Out) (context : Ctx) (documentID : String)
    (plugins : PluginMap C R) (heap : Heap D) (pluginRegistry : Reg)
    (sendReply : SendResponse C R D Out) (cancelFlag : Cancel) (name : String)
    (hname : name ∈ admitted (pluginExecutionImp.RunPlugins engine context documentID plugins
        heap pluginRegistry sendReply cancelFlag)) :
    receivedConfiguration (pluginExecutionImp.RunPlugins engine context documentID plugins
        heap pluginRegistry sendReply cancelFlag) name =
      (rangeLoop plugins ({ configs := [], pluginConfig := none } : LoopState C R)).pluginConfig.map
        (fun st => st.Configuration) := by
  have haddr := rangeLoop_addr plugins ({ configs := [], pluginConfig := none } : LoopState C R)
    (by simp)
  have hget : ∀ (m : List (String × Addr)), (∀ e ∈ m, e.2 = Addr.loopVar) →
      name ∈ keys m → mapGet m name = some Addr.loopVar := by
    intro m
    induction m with
    | nil => intro _ h; simp [keys] at h
    | cons x xs ih =>
      intro hm h
      obtain ⟨k1, a1⟩ := x
      have ha1 : a1 = Addr.loopVar := hm (k1, a1) (List.mem_cons_self _ _)
      by_cases hk : k1 = name
      · simp [mapGet, hk, ha1]
      · simp only [mapGet, hk, if_false]
        apply ih (fun e he => hm e (List.mem_cons_of_mem _ he))
        simp only [keys, List.map_cons, List.mem_cons] at h
        rcases h with h | h
        · exact absurd h.symm hk
        · exact h
  have hg := hget _ haddr hname
  simp only [receivedConfiguration, pluginExecutionImp.RunPlugins] at hg ⊢
  rw [hg]
  rfl

/-- C2, the code at a failing input: for the map with P1 (configuration 1) and P2
(configuration 2), none executed, visited P1 then P2, both plugins are admitted and the
engine finds configuration 2 behind configs[P1] and behind configs[P2], whereas the
PluginState of P1 in the map holds configuration 1. -/
theorem RunPlugins_hands_last_visited_configuration :
    admitted (pluginExecutionImp.RunPlugins idleEngine () "doc" freshMap emptyHeap
        () quietReply ()) = ["P1", "P2"] ∧
      (mapGet freshMap "P1").map (fun st => st.Configuration) = some 1 ∧
      receivedConfiguration (pluginExecutionImp.RunPlugins idleEngine () "doc" freshMap
        emptyHeap () quietReply ()) "P1" = some 2 ∧
      receivedConfiguration (pluginExecutionImp.RunPlugins idleEngine () "doc" freshMap
        emptyHeap () quietReply ()) "P2" = some 2 := by
  decide

/-- C4, counterexample: the map with P1 executed and P2 pending submits no plugin when the
iteration visits P1 first and submits P2 when it visits P2 first, so the submitted set is
not determined by the contents of the map. -/
theorem RunPlugins_submitted_set_depends_on_visiting_order :
    mixedMapPendingFirst.Perm mixedMapExecutedFirst ∧
      (keys mixedMapExecutedFirst).Nodup ∧
      admitted (pluginExecutionImp.RunPlugins idleEngine () "doc" mixedMapExecutedFirst
        emptyHeap () quietReply ()) = [] ∧
      admitted (pluginExecutionImp.RunPlugins idleEngine () "doc" mixedMapPendingFirst
        emptyHeap () quietReply ()) = ["P2"] ∧
      ¬ (∀ (p q : PluginMap Nat Nat), (keys p).Nodup → q.Perm p →
          ∀ n, n ∈ admitted (pluginExecutionImp.RunPlugins idleEngine () "doc" q emptyHeap
                () quietReply ()) ↔
            n ∈ admitted (pluginExecutionImp.RunPlugins idleEngine () "doc" p emptyHeap
                () quietReply ())) := by
  refine ⟨List.Perm.swap _ _ _, by decide, by decide, by decide, ?_⟩
  intro h
  have h1 := h mixedMapExecutedFirst mixedMapPendingFirst (by decide)
    (List.Perm.swap _ _ _) "P2"
  have h2 : "P2" ∈ admitted (pluginExecutionImp.RunPlugins idleEngine () "doc"
      mixedMapPendingFirst emptyHeap () quietReply ()) := by decide
  have h3 : "P2" ∉ admitted (pluginExecutionImp.RunPlugins idleEngine () "doc"
      mixedMapExecutedFirst emptyHeap () quietReply ()) := by decide
  exact h3 (h1.mp h2)

/-- The set of names handed to the engine is the same for every order in which the iteration
can visit the map exactly when all PluginStates of the map have the same HasExecuted value
(none executed, or all executed). -/
theorem order_independent_iff_flags_equal {Ctx Reg Cancel C R D Out : Type}
    (engine : Engine Ctx Reg Cancel C R D Out) (context : Ctx) (documentID : String)
    (plugins : PluginMap C R) (heap : Heap D) (pluginRegistry : Reg)
    (sendReply : SendResponse C R D Out) (cancelFlag : Cancel) :
    (∀ q : PluginMap C R, q.Perm plugins →
        ∀ n, n ∈ admitted (pluginExecutionImp.RunPlugins engine context documentID q heap
              pluginRegistry sendReply cancelFlag) ↔
          n ∈ admitted (pluginExecutionImp.RunPlugins engine context documentID plugins heap
              pluginRegistry sendReply cancelFlag)) ↔
      (∀ x ∈ plugins, ∀ y ∈ plugins, x.2.HasExecuted = y.2.HasExecuted) := by
  constructor
  · intro H x hx y hy
    by_contra hne
    -- one of the two is executed, the other pending
    have key : ∀ (a b : String × PluginState C R), a ∈ plugins → b ∈ plugins →
        a.2.HasExecuted = true → b.2.HasExecuted = false → False := by
      intro a b ha hb hae hbe
      obtain ⟨s1, t1, h1⟩ := List.append_of_mem ha
      obtain ⟨s2, t2, h2⟩ := List.append_of_mem hb
      have p1 : (a :: (s1 ++ t1)).Perm plugins := by
        rw [h1]; exact List.perm_middle.symm
      have p2 : (b :: (s2 ++ t2)).Perm plugins := by
        rw [h2]; exact List.perm_middle.symm
      have e1 := H _ p1 b.1
      have e2 := H _ p2 b.1
      rw [mem_admitted] at e1 e2
      have hb2 : b.1 ∈ keys ((b :: (s2 ++ t2)).takeWhile (fun e => !e.2.HasExecuted)) := by
        simp [List.takeWhile_cons, hbe, keys]
      have ha2 : b.1 ∉ keys ((a :: (s1 ++ t1)).takeWhile (fun e => !e.2.HasExecuted)) := by
        simp [List.takeWhile_cons, hae, keys]
      exact ha2 (e1.mpr (e2.mp hb2))
    cases hxe : x.2.HasExecuted <;> cases hye : y.2.HasExecuted
    · exact hne (hxe.trans hye.symm)
    · exact key y x hy hx hye hxe
    · exact key x y hx hy hxe hye
    · exact hne (hxe.trans hye.symm)
  · intro hflags q hq n
    rw [mem_admitted, mem_admitted]
    by_cases hall : ∀ x ∈ plugins, x.2.HasExecuted = false
    · have hallq : ∀ x ∈ q, x.2.HasExecuted = false := fun x hx => hall x (hq.subset hx)
      rw [takeWhile_all _ plugins (fun x hx => by simp [hall x hx]),
        takeWhile_all _ q (fun x hx => by simp [hallq x hx])]
      exact (hq.map Prod.fst).mem_iff
    · have hex : ∃ x ∈ plugins, x.2.HasExecuted = true := by
        by_contra hc
        apply hall
        intro x hx
        cases hxe : x.2.HasExecuted
        · rfl
        · exact absurd ⟨x, hx, hxe⟩ hc
      obtain ⟨x, hx, hxe⟩ := hex
      have hallt : ∀ y ∈ plugins, y.2.HasExecuted = true :=
        fun y hy => (hflags y hy x hx).trans hxe
      have halltq : ∀ y ∈ q, y.2.HasExecuted = true := fun y hy => hallt y (hq.subset hy)
      constructor
      · intro h
        exact absurd h (not_mem_takeWhile_of_all q halltq n)
      · intro h
        exact absurd h (not_mem_takeWhile_of_all plugins hallt n)

/-- C4, amended: for a plugins map in which all PluginStates have the same HasExecuted value
(none executed, or all executed), two runs on the same map submit the same set of plugin
names, whichever order the map iteration visits the entries in. -/
theorem RunPlugins_submitted_set_order_independent {Ctx Reg Cancel C R D Out : Type}
    (engine : Engine Ctx Reg Cancel C R D Out) (context : Ctx) (documentID : String)
    (plugins : PluginMap C R) (heap : Heap D) (pluginRegistry : Reg)
    (sendReply : SendResponse C R D Out) (cancelFlag : Cancel)
    (hflags : ∀ x ∈ plugins, ∀ y ∈ plugins, x.2.HasExecuted = y.2.HasExecuted)
    (q : PluginMap C R) (hq : q.Perm plugins) (n : String) :
    n ∈ admitted (pluginExecutionImp.RunPlugins engine context documentID q heap
          pluginRegistry sendReply cancelFlag) ↔
      n ∈ admitted (pluginExecutionImp.RunPlugins engine context documentID plugins heap
          pluginRegistry sendReply cancelFlag) :=
  (order_independent_iff_flags_equal engine context documentID plugins heap pluginRegistry
    sendReply cancelFlag).mpr hflags q hq n

/-- Witness of the amended C4 on a map of two pending plugins visited in both orders. -/
theorem RunPlugins_submitted_set_order_independent_witness :
    (∀ x ∈ freshMap, ∀ y ∈ freshMap, x.2.HasExecuted = y.2.HasExecuted) ∧
      freshMap.reverse.Perm freshMap ∧
      ("P1" ∈ admitted (pluginExecutionImp.RunPlugins idleEngine () "doc" freshMap.reverse
            emptyHeap () quietReply ()) ↔
        "P1" ∈ admitted (pluginExecutionImp.RunPlugins idleEngine () "doc" freshMap
            emptyHeap () quietReply ())) :=
  ⟨by decide, List.reverse_perm _,
    RunPlugins_submitted_set_order_independent idleEngine () "doc" freshMap emptyHeap ()
      quietReply () (by decide) freshMap.reverse (List.reverse_perm _) "P1"⟩

/-- C6: with the engine of the spec, if cancelFlag is asserted before any plugin starts the
result mapping returned by RunPlugins is empty and the plugins map is as it was, so every
PluginState that had HasExecuted = false still has it. -/
theorem RunPlugins_cancelled_before_start {Ctx C R D : Type}
    (context : Ctx) (documentID : String) (plugins : PluginMap C R) (heap : Heap D)
    (pluginRegistry : String → Option (C → R))
    (sendReply : SendResponse C R D (List (String × Option R))) (cancelFlag : Nat → Bool)
    (hcancel : cancelFlag 0 = true) :
    (pluginExecutionImp.RunPlugins specEngine context documentID plugins heap
        pluginRegistry sendReply cancelFlag).pluginOutputs = [] ∧
      (pluginExecutionImp.RunPlugins specEngine context documentID plugins heap
        pluginRegistry sendReply cancelFlag).memory.plugins = plugins ∧
      ((∀ x ∈ plugins, x.2.HasExecuted = false) →
        ∀ x ∈ (pluginExecutionImp.RunPlugins specEngine context documentID plugins heap
          pluginRegistry sendReply cancelFlag).memory.plugins, x.2.HasExecuted = false) := by
  have hout : ∀ (configs : List (String × Addr)) (deref : Addr → Option C),
      specEngineAdmit pluginRegistry deref cancelFlag 0 configs = [] := by
    intro configs deref
    cases configs with
    | nil => rfl
    | cons e rest =>
      obtain ⟨name, a⟩ := e
      simp [specEngineAdmit, hcancel]
  have hmem : (pluginExecutionImp.RunPlugins specEngine context documentID plugins heap
      pluginRegistry sendReply cancelFlag).memory.plugins = plugins := by
    simp [pluginExecutionImp.RunPlugins, specEngine, hout, applyEffects]
  refine ⟨?_, hmem, ?_⟩
  · simp [pluginExecutionImp.RunPlugins, specEngine, hout]
  · intro hall x hx
    rw [hmem] at hx
    exact hall x hx

/-- Witness of C6 on a map of two pending plugins, with a flag that is set from the start. -/
theorem RunPlugins_cancelled_before_start_witness :
    (fun _ : Nat => true) 0 = true ∧
      ((pluginExecutionImp.RunPlugins specEngine () "doc" freshMap emptyHeap
          (fun _ => some (fun c : Nat => c + 1)) quietReply
          (fun _ : Nat => true)).pluginOutputs = [] ∧
        (pluginExecutionImp.RunPlugins specEngine () "doc" freshMap emptyHeap
          (fun _ => some (fun c : Nat => c + 1)) quietReply
          (fun _ : Nat => true)).memory.plugins = freshMap ∧
        ((∀ x ∈ freshMap, x.2.HasExecuted = false) →
          ∀ x ∈ (pluginExecutionImp.RunPlugins specEngine () "doc" freshMap emptyHeap
            (fun _ => some (fun c : Nat => c + 1)) quietReply
            (fun _ : Nat => true)).memory.plugins,
            x.2.HasExecuted = false)) :=
  ⟨rfl, RunPlugins_cancelled_before_start () "doc" freshMap emptyHeap
    (fun _ => some (fun c : Nat => c + 1)) quietReply (fun _ : Nat => true) rfl⟩

/-- With a flag that is never set the engine of the spec invokes the handler of every
admitted plugin; each is run on the configuration found behind its pointer. -/
theorem specEngine_runs_admitted_plugins :
    (pluginExecutionImp.RunPlugins specEngine () "doc" freshMap emptyHeap
        (fun _ => some (fun c : Nat => c + 1)) quietReply
        (fun _ : Nat => false)).pluginOutputs
      = [("P1", some 3), ("P2", some 3)] := by
  decide

/-- C10, counterexample: the configuration of P1 in the caller's map refers to the object at
address 7, in state 1 before the call.  The engine is handed a copy of that configuration,
which refers to the same object, and a plugin that puts the object into state 2 changes what
the caller reads through its map. -/
theorem RunPlugins_engine_reaches_shared_object :
    readProperties sharedMap sharedHeap "P1" = some 1 ∧
      readProperties
        (pluginExecutionImp.RunPlugins mutatingEngine () "doc" sharedMap sharedHeap
          () quietReply ()).memory.plugins
        (pluginExecutionImp.RunPlugins mutatingEngine () "doc" sharedMap sharedHeap
          () quietReply ()).memory.heap "P1" = some 2 ∧
      ¬ (∀ (engine : Engine Unit Unit Unit Configuration Nat Nat Unit) (name : String),
          readProperties
            (pluginExecutionImp.RunPlugins engine () "doc" sharedMap sharedHeap
              () quietReply ()).memory.plugins
            (pluginExecutionImp.RunPlugins engine () "doc" sharedMap sharedHeap
              () quietReply ()).memory.heap name
            = readProperties sharedMap sharedHeap name) := by
  refine ⟨by decide, by decide, ?_⟩
  intro h
  have h1 := h mutatingEngine "P1"
  revert h1
  decide

/-- The callback of the caller is run when the engine calls it: a callback that marks the
plugins of the map as executed changes the map during RunPlugins. -/
theorem RunPlugins_runs_the_callback :
    (pluginExecutionImp.RunPlugins replyingEngine () "doc" freshMap emptyHeap
        () markingReply ()).memory.plugins
      = [("P1", ⟨1, true, none⟩), ("P2", ⟨2, true, none⟩)] := by
  decide

/-- C10, amended: whatever the wrapped engine returns, stores through the pointers it was
given and changes in the heap, and as long as the caller's own sendReply callback leaves the
map alone, the entries stored in the caller's plugins map are the same after RunPlugins as
before (same keys, each with the same HasExecuted flag, result and stored Configuration
value), and every pointer handed to the engine addresses the range variable, not the map. -/
theorem RunPlugins_leaves_plugins_unchanged {Ctx Reg Cancel C R D Out : Type}
    (engine : Engine Ctx Reg Cancel C R D Out) (context : Ctx) (documentID : String)
    (plugins : PluginMap C R) (heap : Heap D) (pluginRegistry : Reg)
    (sendReply : SendResponse C R D Out) (cancelFlag : Cancel)
    (hreply : ∀ soFar s, (sendReply soFar s).1 = s.1) :
    (pluginExecutionImp.RunPlugins engine context documentID plugins heap
        pluginRegistry sendReply cancelFlag).memory.plugins = plugins ∧
      (pluginExecutionImp.RunPlugins engine context documentID plugins heap
        pluginRegistry sendReply cancelFlag).memoryAtCall.plugins = plugins ∧
      ∀ e ∈ (pluginExecutionImp.RunPlugins engine context documentID plugins heap
          pluginRegistry sendReply cancelFlag).engineCall.configs, e.2 = Addr.loopVar := by
  have haddr := rangeLoop_addr plugins ({ configs := [], pluginConfig := none } : LoopState C R)
    (by simp)
  refine ⟨?_, rfl, haddr⟩
  simp only [pluginExecutionImp.RunPlugins]
  rw [applyEffects_plugins _ haddr sendReply hreply]

/-- Witness of the amended C10 with the engine that changes the shared object: the entries
stored in the map are as before. -/
theorem RunPlugins_leaves_plugins_unchanged_witness :
    (∀ (soFar : Unit) (s : PluginMap Configuration Nat × Heap Nat),
        (quietReply soFar s).1 = s.1) ∧
      ((pluginExecutionImp.RunPlugins mutatingEngine () "doc" sharedMap sharedHeap
          () quietReply ()).memory.plugins = sharedMap ∧
        (pluginExecutionImp.RunPlugins mutatingEngine () "doc" sharedMap sharedHeap
          () quietReply ()).memoryAtCall.plugins = sharedMap ∧
        ∀ e ∈ (pluginExecutionImp.RunPlugins mutatingEngine () "doc" sharedMap sharedHeap
            () quietReply ()).engineCall.configs, e.2 = Addr.loopVar) :=
  ⟨fun _ _ => rfl,
    RunPlugins_leaves_plugins_unchanged mutatingEngine () "doc" sharedMap sharedHeap ()
      quietReply () (fun _ _ => rfl)⟩

/-- A failing report on a closed policy is attempted and increments the counter. -/
theorem report_failure_closed (counter threshold : Nat) (h : counter < threshold) :
    report NetworkOutcome.failure { counter := counter, threshold := threshold } =
      some { policy := { counter := counter + 1, threshold := threshold },
             result := ReportResult.transportError, networkAttempted := true } := by
  have hlt : ¬ threshold ≤ counter := by omega
  simp [report, assocSvcImp.UpdateAssociationStatus, invoke, specService,
    specUpdateAssociationStatus, StopPolicy.isOpen, StopPolicy.onFailure, hlt]

/-- The counter after `k` failing reports on a fresh policy, as long as the threshold is not
exceeded. -/
theorem afterFailures_counter (threshold k : Nat) (hk : k ≤ threshold) :
    afterFailures k { counter := 0, threshold := threshold } =
      { counter := k, threshold := threshold } := by
  induction k with
  | zero => rfl
  | succ k ih =>
    simp only [afterFailures]
    rw [ih (by omega), report_failure_closed k threshold (by omega)]

/-- C7, counterexample: with threshold 3 the policy is open after three failures, and a
following report during which the network would succeed is skipped: it returns
CircuitOpenError without a network attempt and leaves the counter at 3. -/
theorem stopPolicy_open_report_does_not_reset :
    (afterFailures 3 { counter := 0, threshold := 3 }).isOpen = true ∧
      report NetworkOutcome.success (afterFailures 3 { counter := 0, threshold := 3 }) =
        some { policy := { counter := 3, threshold := 3 },
               result := ReportResult.circuitOpenError, networkAttempted := false } ∧
      ¬ (∀ (threshold : Nat) (step : ReportStep),
          report NetworkOutcome.success
              (afterFailures threshold { counter := 0, threshold := threshold }) = some step →
            step.policy.counter = 0) := by
  refine ⟨by decide, by decide, ?_⟩
  intro h
  have h1 := h 3 ⟨⟨3, 3⟩, ReportResult.circuitOpenError, false⟩ (by decide)
  revert h1
  decide

/-- C7, amended: with the stop policy of the spec behind the adapter, for every threshold:
each of the first `threshold` failing reports is attempted while the policy is closed; after
exactly `threshold` of them the policy is open; the next report is skipped without a network
attempt and leaves the policy as it is, whatever the network would answer; and a report made
while the policy is closed, after fewer than `threshold` failures, during which the network
succeeds is attempted and resets the counter to zero. -/
theorem stopPolicy_opens_after_threshold_failures (threshold : Nat) :
    (∀ k, k < threshold →
        (afterFailures k { counter := 0, threshold := threshold }).isOpen = false ∧
        report NetworkOutcome.failure (afterFailures k { counter := 0, threshold := threshold })
          = some { policy := afterFailures (k + 1) { counter := 0, threshold := threshold },
                   result := ReportResult.transportError, networkAttempted := true }) ∧
      (afterFailures threshold { counter := 0, threshold := threshold }).isOpen = true ∧
      (∀ network : NetworkOutcome,
        report network (afterFailures threshold { counter := 0, threshold := threshold })
          = some { policy := afterFailures threshold { counter := 0, threshold := threshold },
                   result := ReportResult.circuitOpenError, networkAttempted := false }) ∧
      (∀ k, k < threshold →
        report NetworkOutcome.success (afterFailures k { counter := 0, threshold := threshold })
          = some { policy := { counter := 0, threshold := threshold },
                   result := ReportResult.response, networkAttempted := true }) := by
  refine ⟨?_, ?_, ?_, ?_⟩
  · intro k hk
    have hlt : ¬ threshold ≤ k := by omega
    rw [afterFailures_counter threshold k (by omega),
      afterFailures_counter threshold (k + 1) (by omega)]
    exact ⟨by simp [StopPolicy.isOpen, hlt], report_failure_closed k threshold hk⟩
  · rw [afterFailures_counter threshold threshold (le_refl _)]
    simp [StopPolicy.isOpen]
  · intro network
    rw [afterFailures_counter threshold threshold (le_refl _)]
    simp [report, assocSvcImp.UpdateAssociationStatus, invoke, specService,
      specUpdateAssociationStatus, StopPolicy.isOpen]
  · intro k hk
    have hlt : ¬ threshold ≤ k := by omega
    rw [afterFailures_counter threshold k (by omega)]
    simp [report, assocSvcImp.UpdateAssociationStatus, invoke, specService,
      specUpdateAssociationStatus, StopPolicy.isOpen, StopPolicy.onSuccess, hlt]

/-- C8, the code at the failing methods: `assocSvcImp` and `pluginExecutionImp` implement
their interfaces, whereas `bookkeepingImp` has no method `CmdStateDir` (it has
`DocumentStateDir`) and `parserImp` has no method `InitializeCommandState` (it has
`InitializeDocumentState`), so neither implements the interface declared for it. -/
theorem adapters_against_interfaces :
    implements assocSvcImp.methodSet assocService = true ∧
      implements pluginExecutionImp.methodSet pluginExecutionService = true ∧
      implements bookkeepingImp.methodSet bookkeepingService = false ∧
      implements parserImp.methodSet parserService = false ∧
      "CmdStateDir" ∉ bookkeepingImp.methodSet.map (fun m => m.name) ∧
      "DocumentStateDir" ∈ bookkeepingImp.methodSet.map (fun m => m.name) ∧
      "InitializeCommandState" ∉ parserImp.methodSet.map (fun m => m.name) ∧
      "InitializeDocumentState" ∈ parserImp.methodSet.map (fun m => m.name) := by
  decide

/-- C9, counterexample: the comment above `parserImp.InitializeDocumentState` names the
function `InitializeCommandState` of package `engine`, while the one call the method makes
goes to `InitializeCommandState` of package `parser`. -/
theorem InitializeDocumentState_calls_parser_not_engine :
    callees (parserImp.InitializeDocumentState echoPackages (Val.obj 0) (Val.obj 1)
        (Val.obj 2)) = [⟨"parser", "InitializeCommandState"⟩] ∧
      commentNames "parserImp" "InitializeDocumentState" =
        some ⟨"engine", "InitializeCommandState"⟩ ∧
      ¬ (∀ (context payload rawData : Val),
          (callees (parserImp.InitializeDocumentState echoPackages context payload
              rawData)).map some = [commentNames "parserImp" "InitializeDocumentState"]) := by
  refine ⟨by decide, by decide, ?_⟩
  intro h
  have h1 := h (Val.obj 0) (Val.obj 1) (Val.obj 2)
  revert h1
  decide

/-- C9, amended: every wrapper method of assocSvcImp, bookkeepingImp and parserImp makes,
for every behaviour of the other packages and all arguments, exactly one call, to the
package function its body names, with its own arguments in the same positions, and hands
back what that call hands back; the function called is the one the comment above the method
names, except for parserImp.InitializeDocumentState, whose comment names engine
InitializeCommandState while the call goes to parser.InitializeCommandState.  RunPlugins
calls engine.RunPlugins, the function its comment names, once, with the context,
documentID, pluginRegistry, sendReply and cancelFlag it was given, and returns the engine's
output map. -/
theorem wrappers_pass_through {Out Ctx Reg Cancel C R D EOut : Type} :
    (∀ (pkgs : Packages Out) (log ssmSvc : Val) (instanceID : String),
        assocSvcImp.ListAssociations pkgs log ssmSvc instanceID =
          ⟨pkgs ⟨⟨"service", "ListAssociations"⟩, [log, ssmSvc, Val.str instanceID]⟩,
            [⟨⟨"service", "ListAssociations"⟩, [log, ssmSvc, Val.str instanceID]⟩]⟩) ∧
      commentNames "assocSvcImp" "ListAssociations" = some ⟨"service", "ListAssociations"⟩ ∧
    (∀ (pkgs : Packages Out) (log ssmSvc assoc : Val),
        assocSvcImp.LoadAssociationDetail pkgs log ssmSvc assoc =
          ⟨pkgs ⟨⟨"service", "LoadAssociationDetail"⟩, [log, ssmSvc, assoc]⟩,
            [⟨⟨"service", "LoadAssociationDetail"⟩, [log, ssmSvc, assoc]⟩]⟩) ∧
      commentNames "assocSvcImp" "LoadAssociationDetail" = some ⟨"service", "LoadAssociationDetail"⟩ ∧
    (∀ (pkgs : Packages Out) (log ssmSvc : Val) (instanceID name status message : String)
        (agentInfo processorStopPolicy : Val),
        assocSvcImp.UpdateAssociationStatus pkgs log ssmSvc instanceID name status message agentInfo
            processorStopPolicy =
          ⟨pkgs ⟨⟨"service", "UpdateAssociationStatus"⟩, [log, ssmSvc, Val.str instanceID, Val.str name, Val.str status,
              Val.str message, agentInfo, processorStopPolicy]⟩,
            [⟨⟨"service", "UpdateAssociationStatus"⟩, [log, ssmSvc, Val.str instanceID, Val.str name, Val.str status,
              Val.str message, agentInfo, processorStopPolicy]⟩]⟩) ∧
      commentNames "assocSvcImp" "UpdateAssociationStatus" = some ⟨"service", "UpdateAssociationStatus"⟩ ∧
    (∀ (pkgs : Packages Out) (log : Val) (commandID instanceID locationFolder : String)
        (object : Val),
        bookkeepingImp.PersistData pkgs log commandID instanceID locationFolder object =
          ⟨pkgs ⟨⟨"statemanager", "PersistData"⟩, [log, Val.str commandID, Val.str instanceID,
              Val.str locationFolder, object]⟩,
            [⟨⟨"statemanager", "PersistData"⟩, [log, Val.str commandID, Val.str instanceID,
              Val.str locationFolder, object]⟩]⟩) ∧
      commentNames "bookkeepingImp" "PersistData" = some ⟨"statemanager", "PersistData"⟩ ∧
    (∀ (pkgs : Packages Out) (log : Val) (commandID instanceID locationFolder : String),
        bookkeepingImp.RemoveData pkgs log commandID instanceID locationFolder =
          ⟨pkgs ⟨⟨"statemanager", "RemoveData"⟩, [log, Val.str commandID, Val.str instanceID,
              Val.str locationFolder]⟩,
            [⟨⟨"statemanager", "RemoveData"⟩, [log, Val.str commandID, Val.str instanceID,
              Val.str locationFolder]⟩]⟩) ∧
      commentNames "bookkeepingImp" "RemoveData" = some ⟨"statemanager", "RemoveData"⟩ ∧
    (∀ (pkgs : Packages Out) (log : Val) (commandID instanceID locationFolder : String),
        bookkeepingImp.GetDocumentInfo pkgs log commandID instanceID locationFolder =
          ⟨pkgs ⟨⟨"statemanager", "GetDocumentInfo"⟩, [log, Val.str commandID, Val.str instanceID,
              Val.str locationFolder]⟩,
            [⟨⟨"statemanager", "GetDocumentInfo"⟩, [log, Val.str commandID, Val.str instanceID,
              Val.str locationFolder]⟩]⟩) ∧
      commentNames "bookkeepingImp" "GetDocumentInfo" = some ⟨"statemanager", "GetDocumentInfo"⟩ ∧
    (∀ (pkgs : Packages Out) (log docInfo : Val) (commandID instanceID locationFolder : String),
        bookkeepingImp.PersistDocumentInfo pkgs log docInfo commandID instanceID locationFolder =
          ⟨pkgs ⟨⟨"statemanager", "PersistDocumentInfo"⟩, [log, docInfo, Val.str commandID, Val.str instanceID,
              Val.str locationFolder]⟩,
            [⟨⟨"statemanager", "PersistDocumentInfo"⟩, [log, docInfo, Val.str commandID, Val.str instanceID,
              Val.str locationFolder]⟩]⟩) ∧
      commentNames "bookkeepingImp" "PersistDocumentInfo" = some ⟨"statemanager", "PersistDocumentInfo"⟩ ∧
    (∀ (pkgs : Packages Out) (log : Val)
        (commandID instanceID srcLocationFolder dstLocationFolder : String),
        bookkeepingImp.MoveCommandState pkgs log commandID instanceID srcLocationFolder
            dstLocationFolder =
          ⟨pkgs ⟨⟨"statemanager", "MoveCommandState"⟩, [log, Val.str commandID, Val.str instanceID,
              Val.str srcLocationFolder, Val.str dstLocationFolder]⟩,
            [⟨⟨"statemanager", "MoveCommandState"⟩, [log, Val.str commandID, Val.str instanceID,
              Val.str srcLocationFolder, Val.str dstLocationFolder]⟩]⟩) ∧
      commentNames "bookkeepingImp" "MoveCommandState" = some ⟨"statemanager", "MoveCommandState"⟩ ∧
    (∀ (pkgs : Packages Out) (instanceID locationFolder : String),
        bookkeepingImp.DocumentStateDir pkgs instanceID locationFolder =
          ⟨pkgs ⟨⟨"statemanager", "DocumentStateDir"⟩, [Val.str instanceID, Val.str locationFolder]⟩,
            [⟨⟨"statemanager", "DocumentStateDir"⟩, [Val.str instanceID, Val.str locationFolder]⟩]⟩) ∧
      commentNames "bookkeepingImp" "DocumentStateDir" = some ⟨"statemanager", "DocumentStateDir"⟩ ∧
    (∀ (pkgs : Packages Out) (log rawData : Val),
        parserImp.ParseDocumentWithParams pkgs log rawData =
          ⟨pkgs ⟨⟨"parser", "ParseDocumentWithParams"⟩, [log, rawData]⟩,
            [⟨⟨"parser", "ParseDocumentWithParams"⟩, [log, rawData]⟩]⟩) ∧
      commentNames "parserImp" "ParseDocumentWithParams" = some ⟨"parser", "ParseDocumentWithParams"⟩ ∧
    (∀ (pkgs : Packages Out) (context payload rawData : Val),
        parserImp.InitializeDocumentState pkgs context payload rawData =
          ⟨pkgs ⟨⟨"parser", "InitializeCommandState"⟩, [context, payload, rawData]⟩,
            [⟨⟨"parser", "InitializeCommandState"⟩, [context, payload, rawData]⟩]⟩) ∧
      commentNames "parserImp" "InitializeDocumentState" = some ⟨"engine", "InitializeCommandState"⟩ ∧
      (∀ (engine : Engine Ctx Reg Cancel C R D EOut) (context : Ctx) (documentID : String)
          (plugins : PluginMap C R) (heap : Heap D) (pluginRegistry : Reg)
          (sendReply : SendResponse C R D EOut) (cancelFlag : Cancel),
        (pluginExecutionImp.RunPlugins engine context documentID plugins heap pluginRegistry
            sendReply cancelFlag).calls = [⟨"engine", "RunPlugins"⟩] ∧
        (pluginExecutionImp.RunPlugins engine context documentID plugins heap pluginRegistry
            sendReply cancelFlag).pluginOutputs
          = (engine
              { context := context, documentID := documentID,
                configs := (pluginExecutionImp.RunPlugins engine context documentID plugins
                  heap pluginRegistry sendReply cancelFlag).engineCall.configs,
                pluginRegistry := pluginRegistry, sendReply := sendReply,
                cancelFlag := cancelFlag }
              (load (pluginExecutionImp.RunPlugins engine context documentID plugins heap
                pluginRegistry sendReply cancelFlag).memoryAtCall) heap).pluginOutputs ∧
        (pluginExecutionImp.RunPlugins engine context documentID plugins heap pluginRegistry
            sendReply cancelFlag).memory
          = applyEffects
              (pluginExecutionImp.RunPlugins engine context documentID plugins heap
                pluginRegistry sendReply cancelFlag).engineCall.configs
              sendReply
              (engine
                { context := context, documentID := documentID,
                  configs := (pluginExecutionImp.RunPlugins engine context documentID plugins
                    heap pluginRegistry sendReply cancelFlag).engineCall.configs,
                  pluginRegistry := pluginRegistry, sendReply := sendReply,
                  cancelFlag := cancelFlag }
                (load (pluginExecutionImp.RunPlugins engine context documentID plugins heap
                  pluginRegistry sendReply cancelFlag).memoryAtCall) heap).effects
              (pluginExecutionImp.RunPlugins engine context documentID plugins heap
                pluginRegistry sendReply cancelFlag).memoryAtCall) ∧
      commentNames "pluginExecutionImp" "RunPlugins" = some ⟨"engine", "RunPlugins"⟩ := by
  refine ⟨?_, ?_, ?_, ?_, ?_, ?_, ?_, ?_, ?_, ?_, ?_, ?_, ?_, ?_, ?_, ?_, ?_, ?_, ?_, ?_,
    ?_, ?_, ?_, ?_⟩
  all_goals first
    | decide
    | (intros; rfl)
    | (intros; exact ⟨rfl, rfl, rfl⟩)

end processor
